import Mathlib

/-!
Shallow embedding of the playback engine of `pseudo-cd` (src/src/playback.rs),
together with the small pieces of the TUI key handlers (src/src/tui.rs) that
clamp seek targets and volume before sending commands.

Modelling conventions:
* Rust `u64`/`u32` byte offsets and counters are `Nat`; where the code performs
  a narrowing `as u32` cast we reduce modulo `u32Mod = 2^32`, and where a
  `f64 -> u64` `as` cast occurs we use the saturating conversion `satCastU64`.
* Rust `f64` values (seek targets, volume, reported positions) are modelled as
  exact rationals `ℚ`; `f64` rounding of products/sums is not modelled (all
  concrete inputs used in witnesses are exactly representable).
* Rust `u64` subtraction `cursor - start_pos` is modelled with truncated `Nat`
  subtraction; the states in which the two differ are exactly the states in
  which the Rust expression underflows (panics in debug builds, wraps in
  release), captured by the predicate `positionUnderflows`.
* The engine thread's `loop` is one `tick` per iteration: poll at most one
  command, then (unless the loop was exited by `StopAndWait`) run the
  per-sample production block.  `run` iterates ticks over a list of inputs
  (`none` = empty mailbox poll).
-/

namespace PseudoCd

/-- `SECTOR_SIZE` from src/src/lib.rs: optical-disc sector size in bytes. -/
def SECTOR_SIZE : Nat := 2048

/-- `AUDIO_SAMPLE_RATE` from src/src/playback.rs. -/
def AUDIO_SAMPLE_RATE : Nat := 44100

/-- `AUDIO_BIT_DEPTH` from src/src/playback.rs. -/
def AUDIO_BIT_DEPTH : Nat := 16

/-- `AUDIO_CHANNELS` from src/src/playback.rs. -/
def AUDIO_CHANNELS : Nat := 2

/-- `SAMPLES_ONE_SEC = AUDIO_SAMPLE_RATE * AUDIO_CHANNELS` (playback.rs). -/
def SAMPLES_ONE_SEC : Nat := AUDIO_SAMPLE_RATE * AUDIO_CHANNELS

/-- `BYTES_ONE_SEC = SAMPLES_ONE_SEC * AUDIO_BIT_DEPTH / 8` (playback.rs). -/
def BYTES_ONE_SEC : Nat := SAMPLES_ONE_SEC * AUDIO_BIT_DEPTH / 8

/-- Modulus of a Rust `u32` narrowing cast. -/
def u32Mod : Nat := 4294967296

/-- Saturation bound of a Rust `f64 -> u64` `as` cast. -/
def u64Max : Nat := 18446744073709551615

/-- `duration_from_bytes` from playback.rs (f64 division modelled in ℚ). -/
def duration_from_bytes (size : Nat) : ℚ := (size : ℚ) / (BYTES_ONE_SEC : ℚ)

/-- `Track` from src/src/lib.rs; all address fields are in sectors. -/
structure Track where
  track_no : Nat
  session_no : Nat
  start_addr : Nat
  end_addr : Nat
  size : Nat
deriving DecidableEq, Repr

/-- Modelled from the spec: `Track::start_offset` is called by playback.rs but
its definition is not among the provided source files; the spec states
`start_offset = start_addr × sector_size`. -/
def Track.start_offset (t : Track) : Nat := t.start_addr * SECTOR_SIZE

/-- Modelled from the spec: `Track::end_offset` is called by playback.rs but
its definition is not among the provided source files; the spec states
`end_offset = end_addr × sector_size`. -/
def Track.end_offset (t : Track) : Nat := t.end_addr * SECTOR_SIZE

/-- Modelled from the spec: `Track::size_bytes` is called by tui.rs but its
definition is not among the provided source files; the spec states
`size_bytes = size × sector_size`. -/
def Track.size_bytes (t : Track) : Nat := t.size * SECTOR_SIZE

/-- `PlayerCommand` from playback.rs. -/
inductive PlayerCommand where
  | Goto (track : Track) (play : Bool)
  | Seek (p : ℚ)
  | Start
  | Pause
  | Play
  | SetPaused (p : Bool)
  | ChangeVolume (v : ℚ)
  | GetPosition
  | GetIsPaused
  | StopAndWait
deriving DecidableEq, Repr

/-- `PlayerCallbackEvent` from playback.rs (`Progress` fields are `u32`). -/
inductive PlayerCallbackEvent where
  | Finished
  | Paused (b : Bool)
  | Progress (current total : Nat)
deriving DecidableEq, Repr

/-- `PlayerResult` from playback.rs (`Position` is `f64`, modelled in ℚ). -/
inductive PlayerResult where
  | None
  | IsPaused (b : Bool)
  | Position (p : ℚ)
  | Stopped
deriving DecidableEq, Repr

/-- The engine thread's local mutable state (the `let mut` block at the top of
the closure in `start_global_playback_thread`).  `reader = some c` models an
open `BufReader` whose stream position is byte `c`; `none` models no medium
open. -/
structure EngineState where
  paused : Bool
  reader : Option Nat
  start_pos : Nat
  end_pos : Nat
  song_seconds : Nat
  volume : ℚ
deriving DecidableEq, Repr

/-- Initial engine state (`paused = true`, no reader, zero offsets,
`volume = 1.0`). -/
def initState : EngineState :=
  { paused := true, reader := none, start_pos := 0, end_pos := 0,
    song_seconds := 0, volume := 1 }

/-- Rust saturating `f64 -> u64` `as` cast on an exact rational: negative
values go to 0, values ≥ 2^64 go to `u64Max`, otherwise truncation toward
zero (= floor for nonnegative values). -/
def satCastU64 (q : ℚ) : Nat :=
  if q < 0 then 0 else min (Int.toNat ⌊q⌋) u64Max

/-- Truncation toward zero of a rational, the rounding used by a Rust
`f64 -> i16` `as` cast (before saturation). -/
def truncQ (q : ℚ) : ℤ := if 0 ≤ q then ⌊q⌋ else -⌊-q⌋

/-- Saturation of a Rust `as i16` cast. -/
def satI16 (x : ℤ) : ℤ := max (-32768) (min 32767 x)

/-- `(sample as f64 * volume) as i16` from the per-sample production block of
playback.rs (f64 product modelled as exact rational product). -/
def applyVolume (sample : ℤ) (volume : ℚ) : ℤ :=
  satI16 (truncQ ((sample : ℚ) * volume))

/-- Output of processing one polled command. -/
structure CmdOut where
  state : EngineState
  events : List PlayerCallbackEvent
  results : List PlayerResult
  stopped : Bool
deriving DecidableEq, Repr

/-- The `match cmd_rx.try_recv()` dispatch of the engine loop in playback.rs,
for one received command. -/
def applyCommand (st : EngineState) : PlayerCommand → CmdOut
  | .Start =>
      -- `reader = Some(BufReader::new(File::open(&drive).unwrap()))`:
      -- a fresh reader is at stream position 0.
      { state := { st with reader := some 0 }, events := [], results := [],
        stopped := false }
  | .Goto track play =>
      let (st1, evs1) :=
        match st.reader with
        | some _ =>
            -- `r.seek(SeekFrom::Start(track.start_offset()))`, and the
            -- autoplay branch, run only when a reader is open.
            if play then
              ({ st with reader := some track.start_offset, paused := false },
               [PlayerCallbackEvent.Paused false])
            else
              ({ st with reader := some track.start_offset }, [])
        | none => (st, [])
      let start_pos := track.start_offset
      let end_pos := track.end_offset
      let song_seconds := ((end_pos - start_pos) / BYTES_ONE_SEC) % u32Mod
      { state := { st1 with start_pos, end_pos, song_seconds },
        events := evs1 ++ [PlayerCallbackEvent.Progress 0 song_seconds],
        results := [], stopped := false }
  | .Pause =>
      { state := { st with paused := true },
        events := [PlayerCallbackEvent.Paused true], results := [],
        stopped := false }
  | .Play =>
      { state := { st with paused := false },
        events := [PlayerCallbackEvent.Paused false], results := [],
        stopped := false }
  | .SetPaused p =>
      { state := { st with paused := p },
        events := [PlayerCallbackEvent.Paused p], results := [],
        stopped := false }
  | .GetIsPaused =>
      { state := st, events := [],
        results := [PlayerResult.IsPaused st.paused], stopped := false }
  | .GetPosition =>
      -- `(r.stream_position().unwrap() - start_pos) as f64 / BYTES_ONE_SEC as f64`;
      -- the u64 subtraction is modelled with truncated Nat subtraction (see
      -- `positionUnderflows` for the states where the Rust code underflows).
      let position : ℚ :=
        match st.reader with
        | none => 0
        | some c => ((c - st.start_pos : Nat) : ℚ) / (BYTES_ONE_SEC : ℚ)
      { state := st, events := [],
        results := [PlayerResult.Position position], stopped := false }
  | .Seek p =>
      match st.reader with
      | some _ =>
          let one_sec_samples := satCastU64 ((SAMPLES_ONE_SEC : ℚ) * p)
          -- "For two-channel audio streams, only skip even samples"
          let one_sec_samples :=
            if one_sec_samples % 2 = 1 then one_sec_samples - 1
            else one_sec_samples
          let seek_pos := st.start_pos + one_sec_samples * AUDIO_BIT_DEPTH / 8
          { state := { st with reader := some seek_pos },
            events := [PlayerCallbackEvent.Progress
              (((seek_pos - st.start_pos) / BYTES_ONE_SEC) % u32Mod)
              st.song_seconds],
            results := [], stopped := false }
      | none =>
          { state := st, events := [], results := [], stopped := false }
  | .ChangeVolume v =>
      { state := { st with volume := v }, events := [], results := [],
        stopped := false }
  | .StopAndWait =>
      { state := st, events := [], results := [PlayerResult.Stopped],
        stopped := true }

/-- The state of an empty poll (`Err(TryRecvError::Empty)`): nothing happens. -/
def noCommand (st : EngineState) : CmdOut :=
  { state := st, events := [], results := [], stopped := false }

/-- The per-sample production block of the engine loop
(`if !paused && let Some(ref mut r) = reader { ... }`): returns the new state,
the emitted events, and the samples pushed onto the audio queue.  `medium pos`
is the 16-bit sample `read_i16::<LE>()` returns at byte position `pos`. -/
def productionStep (medium : Nat → ℤ) (st : EngineState) :
    EngineState × List PlayerCallbackEvent × List ℤ :=
  match st.reader with
  | none => (st, [], [])
  | some pos =>
      if st.paused then (st, [], [])
      else if st.end_pos ≤ pos then
        -- reach the end of the playing song
        (st, [PlayerCallbackEvent.Finished], [])
      else
        let sample := applyVolume (medium pos) st.volume
        let evs :=
          if (pos - st.start_pos) % BYTES_ONE_SEC = 0 then
            [PlayerCallbackEvent.Progress
              (((pos - st.start_pos) / BYTES_ONE_SEC) % u32Mod)
              st.song_seconds]
          else []
        ({ st with reader := some (pos + 2) }, evs, [sample])

/-- Output of one loop iteration or of a whole run. -/
structure TickOut where
  state : EngineState
  events : List PlayerCallbackEvent
  results : List PlayerResult
  outs : List ℤ
  stopped : Bool
deriving DecidableEq, Repr

/-- One mailbox poll: dispatch a received command, or do nothing on an empty
poll. -/
def pollCommand (st : EngineState) : Option PlayerCommand → CmdOut
  | some cmd => applyCommand st cmd
  | none => noCommand st

/-- One iteration of the engine loop: poll at most one command
(`none` = empty mailbox), then, unless `StopAndWait` broke out of the loop,
run the production block. -/
def tick (medium : Nat → ℤ) (st : EngineState) (input : Option PlayerCommand) :
    TickOut :=
  let c := pollCommand st input
  if c.stopped then
    { state := c.state, events := c.events, results := c.results, outs := [],
      stopped := true }
  else
    let (st', evs, outs) := productionStep medium c.state
    { state := st', events := c.events ++ evs, results := c.results,
      outs := outs, stopped := false }

/-- Iterated engine loop over a list of poll results; processing stops (as the
Rust `loop` does via `break`) at the first `StopAndWait`. -/
def run (medium : Nat → ℤ) (st : EngineState) :
    List (Option PlayerCommand) → TickOut
  | [] => { state := st, events := [], results := [], outs := [],
            stopped := false }
  | i :: rest =>
      let t := tick medium st i
      if t.stopped then t
      else
        let r := run medium t.state rest
        { state := r.state, events := t.events ++ r.events,
          results := t.results ++ r.results, outs := t.outs ++ r.outs,
          stopped := r.stopped }

/-- The states in which the Rust `u64` subtraction `stream_position() -
start_pos` (GetPosition handler and in-loop Progress check) underflows:
medium open with cursor strictly below `start_pos`. -/
def positionUnderflows (st : EngineState) : Prop :=
  ∃ c, st.reader = some c ∧ c < st.start_pos

/-- The seek-forward key handler of tui.rs (`KeyCode::Char('l') | Right`):
adds 5 seconds to the queried position and clamps the target to
`duration - 1.0` when it would reach the duration. -/
def tuiSeekForward (p duration : ℚ) : ℚ :=
  let p' := p + 5
  if duration ≤ p' then duration - 1 else p'

/-- The volume-down key handler of tui.rs (`KeyCode::Char(',')`); the f64
step `0.01` is modelled as the exact rational 1/100. -/
def tuiVolumeDown (v : ℚ) : ℚ :=
  let v' := v - 1/100
  if v' ≤ 0 then 0 else v'

/-- The volume-up key handler of tui.rs (`KeyCode::Char('.')`). -/
def tuiVolumeUp (v : ℚ) : ℚ :=
  let v' := v + 1/100
  if 1 ≤ v' then 1 else v'

/-- The sample count the Seek handler computes (playback.rs lines 229-233):
`(SAMPLES_ONE_SEC as f64 * p) as u64`, decremented by one if odd ("For
two-channel audio streams, only skip even samples"). -/
def seekSamples (p : ℚ) : Nat :=
  let k := satCastU64 ((SAMPLES_ONE_SEC : ℚ) * p)
  if k % 2 = 1 then k - 1 else k

/-- The real-time audio callback `play_fn` from `create_audio_stream`
(playback.rs): for each of the `n` slots of the output buffer, take the next
queued sample if one is available (`rx.try_recv()`), otherwise the silence
value `i16::EQUILIBRIUM = 0`; returns the filled buffer and the remaining
queue. -/
def playFn (queue : List ℤ) : Nat → List ℤ × List ℤ
  | 0 => ([], queue)
  | n + 1 =>
      match queue with
      | [] =>
          let (buf, q') := playFn [] n
          (0 :: buf, q')
      | s :: rest =>
          let (buf, q') := playFn rest n
          (s :: buf, q')

/-- `N` consecutive callback invocations with buffer size `n`, starting from
queue `queue`; returns the concatenation of all emitted buffers. -/
def playCycles (queue : List ℤ) (n : Nat) : Nat → List ℤ
  | 0 => []
  | k + 1 =>
      let (buf, q') := playFn queue n
      buf ++ playCycles q' n k

/-- The `current` fields of the `Progress` events in an event list. -/
def progressCurrents (evs : List PlayerCallbackEvent) : List Nat :=
  evs.filterMap fun e =>
    match e with
    | .Progress c _ => some c
    | _ => none

/-- Poll inputs that neither move the cursor, change the current track, open
the medium, nor stop the loop ("while playing" commands): empty polls, the
pause-state commands, volume changes and the two synchronous queries. -/
def benignInput : Option PlayerCommand → Bool
  | none => true
  | some (.Pause) => true
  | some (.Play) => true
  | some (.SetPaused _) => true
  | some (.ChangeVolume _) => true
  | some (.GetPosition) => true
  | some (.GetIsPaused) => true
  | some _ => false

/-- Lower bound for the `current` value of any in-loop `Progress` the engine
can still emit from state `st`: the number of whole seconds strictly needed to
reach the cursor (ceiling of elapsed bytes over `BYTES_ONE_SEC`). -/
def lbnd (st : EngineState) : Nat :=
  match st.reader with
  | none => 0
  | some c => (c - st.start_pos + (BYTES_ONE_SEC - 1)) / BYTES_ONE_SEC

/-- Rounding to nearest, as claimed by the spec for the per-sample volume
multiplication (`round(sample × v)`); stated with Mathlib's `round` for
comparison against the code's `truncQ`-based behaviour. -/
def specRoundVolume (sample : ℤ) (volume : ℚ) : ℤ :=
  round ((sample : ℚ) * volume)

/-! ### Helper lemmas -/

theorem BYTES_ONE_SEC_eq : BYTES_ONE_SEC = 176400 := rfl

theorem u32Mod_eq : u32Mod = 4294967296 := rfl

theorem noCommand_state (st : EngineState) : (noCommand st).state = st := rfl

theorem productionStep_none (medium : Nat → ℤ) (st : EngineState)
    (hr : st.reader = none) : productionStep medium st = (st, [], []) := by
  unfold productionStep
  rw [hr]

theorem productionStep_paused (medium : Nat → ℤ) (st : EngineState)
    (hp : st.paused = true) : productionStep medium st = (st, [], []) := by
  unfold productionStep
  cases hr : st.reader with
  | none => rfl
  | some pos => rw [hp]; simp

theorem productionStep_finished (medium : Nat → ℤ) (st : EngineState)
    (pos : Nat) (hr : st.reader = some pos) (hp : st.paused = false)
    (hge : st.end_pos ≤ pos) :
    productionStep medium st = (st, [PlayerCallbackEvent.Finished], []) := by
  unfold productionStep
  rw [hr, hp]
  simp [hge]

theorem productionStep_reads (medium : Nat → ℤ) (st : EngineState)
    (pos : Nat) (hr : st.reader = some pos) (hp : st.paused = false)
    (hlt : pos < st.end_pos) :
    productionStep medium st =
      ({ st with reader := some (pos + 2) },
       (if (pos - st.start_pos) % BYTES_ONE_SEC = 0 then
          [PlayerCallbackEvent.Progress
            (((pos - st.start_pos) / BYTES_ONE_SEC) % u32Mod) st.song_seconds]
        else []),
       [applyVolume (medium pos) st.volume]) := by
  unfold productionStep
  rw [hr, hp]
  simp [Nat.not_le.mpr hlt]

theorem tick_stopped_eq_poll (medium : Nat → ℤ) (st : EngineState)
    (i : Option PlayerCommand) :
    (tick medium st i).stopped = (pollCommand st i).stopped := by
  unfold tick
  rcases h : productionStep medium (pollCommand st i).state with ⟨a, b, c⟩
  by_cases hs : (pollCommand st i).stopped <;> simp [hs, h]

theorem tick_results_eq_poll (medium : Nat → ℤ) (st : EngineState)
    (i : Option PlayerCommand) :
    (tick medium st i).results = (pollCommand st i).results := by
  unfold tick
  rcases h : productionStep medium (pollCommand st i).state with ⟨a, b, c⟩
  by_cases hs : (pollCommand st i).stopped <;> simp [hs, h]

theorem tick_state_eq (medium : Nat → ℤ) (st : EngineState)
    (i : Option PlayerCommand) (h : (pollCommand st i).stopped = false) :
    (tick medium st i).state
      = (productionStep medium (pollCommand st i).state).1 := by
  unfold tick
  rcases hps : productionStep medium (pollCommand st i).state with ⟨a, b, c⟩
  simp [h, hps]

theorem tick_events_eq (medium : Nat → ℤ) (st : EngineState)
    (i : Option PlayerCommand) (h : (pollCommand st i).stopped = false) :
    (tick medium st i).events
      = (pollCommand st i).events
        ++ (productionStep medium (pollCommand st i).state).2.1 := by
  unfold tick
  rcases hps : productionStep medium (pollCommand st i).state with ⟨a, b, c⟩
  simp [h, hps]

theorem tick_outs_eq (medium : Nat → ℤ) (st : EngineState)
    (i : Option PlayerCommand) (h : (pollCommand st i).stopped = false) :
    (tick medium st i).outs
      = (productionStep medium (pollCommand st i).state).2.2 := by
  unfold tick
  rcases hps : productionStep medium (pollCommand st i).state with ⟨a, b, c⟩
  simp [h, hps]

theorem run_nil (medium : Nat → ℤ) (st : EngineState) :
    run medium st []
      = { state := st, events := [], results := [], outs := [],
          stopped := false } := rfl

theorem run_cons_not_stopped (medium : Nat → ℤ) (st : EngineState)
    (i : Option PlayerCommand) (rest : List (Option PlayerCommand))
    (h : (pollCommand st i).stopped = false) :
    run medium st (i :: rest) =
      { state := (run medium (tick medium st i).state rest).state,
        events := (tick medium st i).events
          ++ (run medium (tick medium st i).state rest).events,
        results := (tick medium st i).results
          ++ (run medium (tick medium st i).state rest).results,
        outs := (tick medium st i).outs
          ++ (run medium (tick medium st i).state rest).outs,
        stopped := (run medium (tick medium st i).state rest).stopped } := by
  have hts : (tick medium st i).stopped = false := by
    rw [tick_stopped_eq_poll, h]
  conv_lhs => rw [run]
  simp [hts]

theorem run_cons_stopped (medium : Nat → ℤ) (st : EngineState)
    (i : Option PlayerCommand) (rest : List (Option PlayerCommand))
    (h : (pollCommand st i).stopped = true) :
    run medium st (i :: rest) = tick medium st i := by
  have hts : (tick medium st i).stopped = true := by
    rw [tick_stopped_eq_poll, h]
  conv_lhs => rw [run]
  simp [hts]

/-! ### C1: Goto(T, true) then GetPosition -/

/-- C1 counterexample: with a medium open, `Goto(T, true)` immediately
followed by `GetPosition` does **not** return `Position(0)`: the production
step that runs between the two commands advances the cursor by one sample
(2 bytes), so the reported position is `2/176400 = 1/88200` seconds, not
exactly zero. -/
theorem c1_position_counterexample :
    (run (fun _ => 99) initState
        [some PlayerCommand.Start,
         some (PlayerCommand.Goto ⟨1, 1, 100, 200, 100⟩ true),
         some PlayerCommand.GetPosition]).results
      = [PlayerResult.Position (1/88200)] ∧ ((1 : ℚ)/88200) ≠ 0 := by
  constructor
  · have h : (run (fun _ => 99) initState
        [some PlayerCommand.Start,
         some (PlayerCommand.Goto ⟨1, 1, 100, 200, 100⟩ true),
         some PlayerCommand.GetPosition]).results
        = [PlayerResult.Position (((2 : Nat) : ℚ) / ((176400 : Nat) : ℚ))] :=
      rfl
    rw [h]
    norm_num
  · norm_num

/-- C1 (amended): with a medium open and a nonempty track, `Goto(T, true)`
immediately followed by `GetPosition` returns
`Position(bytes_per_sample / bytes_per_second) = Position(2/176400)` — the
one production step between the two commands advances the cursor by one
sample, so the result is strictly positive, not exactly 0 (though it floors
to 0 whole seconds). -/
theorem c1_position_amended (medium : Nat → ℤ) (st : EngineState) (c : Nat)
    (T : Track) (hr : st.reader = some c)
    (hT : T.start_offset + 2 ≤ T.end_offset) :
    (run medium st [some (PlayerCommand.Goto T true),
        some PlayerCommand.GetPosition]).results
      = [PlayerResult.Position ((2 : ℚ) / (BYTES_ONE_SEC : ℚ))] ∧
    (0 : ℚ) < (2 : ℚ) / (BYTES_ONE_SEC : ℚ) := by
  have hval : (0 : ℚ) < (2 : ℚ) / (BYTES_ONE_SEC : ℚ) := by
    rw [BYTES_ONE_SEC_eq]; norm_num
  refine ⟨?_, hval⟩
  obtain ⟨p, r, sp, ep, ss, vol⟩ := st
  have hr' : r = some c := hr
  subst hr'
  have h1 : (pollCommand ⟨p, some c, sp, ep, ss, vol⟩
      (some (PlayerCommand.Goto T true))).stopped = false := rfl
  rw [run_cons_not_stopped _ _ _ _ h1]
  rw [tick_results_eq_poll]
  have hres1 : (pollCommand ⟨p, some c, sp, ep, ss, vol⟩
      (some (PlayerCommand.Goto T true))).results = [] := rfl
  rw [hres1]
  have hstate1 : (pollCommand ⟨p, some c, sp, ep, ss, vol⟩
      (some (PlayerCommand.Goto T true))).state
      = ⟨false, some T.start_offset, T.start_offset, T.end_offset,
         ((T.end_offset - T.start_offset) / BYTES_ONE_SEC) % u32Mod, vol⟩ := rfl
  have htick1 : (tick medium ⟨p, some c, sp, ep, ss, vol⟩
      (some (PlayerCommand.Goto T true))).state
      = ⟨false, some (T.start_offset + 2), T.start_offset, T.end_offset,
         ((T.end_offset - T.start_offset) / BYTES_ONE_SEC) % u32Mod, vol⟩ := by
    rw [tick_state_eq _ _ _ h1, hstate1]
    rw [productionStep_reads _ _ T.start_offset rfl rfl (by simp only; omega)]
  rw [htick1]
  have h2 : (pollCommand
      (⟨false, some (T.start_offset + 2), T.start_offset, T.end_offset,
        ((T.end_offset - T.start_offset) / BYTES_ONE_SEC) % u32Mod, vol⟩ :
        EngineState) (some PlayerCommand.GetPosition)).stopped = false := rfl
  rw [run_cons_not_stopped _ _ _ _ h2]
  rw [tick_results_eq_poll]
  simp only [run_nil, List.append_nil, List.nil_append]
  have hres2 : (pollCommand
      (⟨false, some (T.start_offset + 2), T.start_offset, T.end_offset,
        ((T.end_offset - T.start_offset) / BYTES_ONE_SEC) % u32Mod, vol⟩ :
        EngineState) (some PlayerCommand.GetPosition)).results
      = [PlayerResult.Position
          (((T.start_offset + 2 - T.start_offset : Nat) : ℚ)
            / (BYTES_ONE_SEC : ℚ))] := rfl
  rw [hres2]
  have hsub : T.start_offset + 2 - T.start_offset = 2 := by omega
  rw [hsub]
  norm_num

/-- Witness for `c1_position_amended` at a concrete open-medium state and
track. -/
theorem c1_position_amended_witness :
    (run (fun _ => 0) { initState with reader := some 5 }
        [some (PlayerCommand.Goto ⟨1, 1, 100, 200, 100⟩ true),
         some PlayerCommand.GetPosition]).results
      = [PlayerResult.Position ((2 : ℚ) / (BYTES_ONE_SEC : ℚ))] ∧
    (0 : ℚ) < (2 : ℚ) / (BYTES_ONE_SEC : ℚ) :=
  c1_position_amended (fun _ => 0) { initState with reader := some 5 } 5
    ⟨1, 1, 100, 200, 100⟩ rfl (by decide)

/-! ### C3: the Seek handler -/

/-- C3 counterexample: the engine does **not** clamp a seek target at or
beyond the track duration.  On a track of 2048 bytes (duration ≈ 0.0116 s),
`Seek(1)` repositions the cursor to byte 176400, far past `end_pos = 2048`:
no clamp to `duration − one_sample_period` (which would land on an in-track
byte ≤ 2048) occurs. -/
theorem c3_seek_counterexample :
    (applyCommand
        { paused := false, reader := some 0, start_pos := 0, end_pos := 2048,
          song_seconds := 0, volume := 1 }
        (PlayerCommand.Seek 1)).state.reader = some 176400 ∧
    ¬ (176400 ≤ 2048) := by
  constructor
  · have h1 : (SAMPLES_ONE_SEC : ℚ) * 1 = ((88200 : Nat) : ℚ) := by
      norm_num [SAMPLES_ONE_SEC, AUDIO_SAMPLE_RATE, AUDIO_CHANNELS]
    have h2 : satCastU64 ((SAMPLES_ONE_SEC : ℚ) * 1) = 88200 := by
      rw [satCastU64, h1, if_neg (by norm_num)]
      rw [Int.floor_natCast]
      rw [show Int.toNat ((88200 : Nat) : ℤ) = 88200 from rfl]
      rw [show u64Max = 18446744073709551615 from rfl]
      omega
    have h0 : (applyCommand
        { paused := false, reader := some 0, start_pos := 0, end_pos := 2048,
          song_seconds := 0, volume := 1 }
        (PlayerCommand.Seek 1)).state.reader
        = some (0 + (if satCastU64 ((SAMPLES_ONE_SEC : ℚ) * 1) % 2 = 1
              then satCastU64 ((SAMPLES_ONE_SEC : ℚ) * 1) - 1
              else satCastU64 ((SAMPLES_ONE_SEC : ℚ) * 1))
            * AUDIO_BIT_DEPTH / 8) := rfl
    rw [h0, h2]
    rfl
  · omega

/-- C3 (amended): with a medium open, `Seek(s)` repositions the cursor to
exactly `start_pos + seekSamples s × bytes_per_sample` (2 bytes) where
`seekSamples s` is the saturating `f64 → u64` cast of
`s × samples_per_second` decremented by one if odd — so the landing sample
index is always even, and `s < 0` clamps to sample 0 (the cast saturates
negatives to zero).  The engine itself never clamps targets at or above the
duration: for any `s ≥ duration` (track length a multiple of 4 bytes, as all
sector-aligned tracks are, and within `u64` range) the cursor lands at or
beyond `end_pos`.  The clamp the original claim describes lives in the TUI
seek-forward key handler, which sends `duration − 1` second (not
`duration − one_sample_period`) whenever the target would reach the
duration, and always sends a target strictly below the duration. -/
theorem c3_seek_amended :
    (∀ (st : EngineState) (c : Nat) (p : ℚ), st.reader = some c →
      (applyCommand st (PlayerCommand.Seek p)).state.reader
        = some (st.start_pos + seekSamples p * 2) ∧
      seekSamples p % 2 = 0 ∧
      (p < 0 → seekSamples p = 0)) ∧
    (∀ (st : EngineState) (c : Nat) (p : ℚ), st.reader = some c →
      st.start_pos ≤ st.end_pos →
      (st.end_pos - st.start_pos) % 4 = 0 →
      st.end_pos - st.start_pos ≤ 2 * u64Max →
      duration_from_bytes (st.end_pos - st.start_pos) ≤ p →
      st.end_pos ≤ st.start_pos + seekSamples p * 2) ∧
    (∀ p d : ℚ,
      (d ≤ p + 5 → tuiSeekForward p d = d - 1) ∧ tuiSeekForward p d < d) := by
  refine ⟨?_, ?_, ?_⟩
  · intro st c p hr
    obtain ⟨pa, r, sp, ep, ss, vol⟩ := st
    have hr' : r = some c := hr
    subst hr'
    refine ⟨?_, ?_, ?_⟩
    · have h0 : (applyCommand ⟨pa, some c, sp, ep, ss, vol⟩
          (PlayerCommand.Seek p)).state.reader
          = some (sp + seekSamples p * AUDIO_BIT_DEPTH / 8) := rfl
      rw [h0]
      congr 1
      generalize seekSamples p = m
      show sp + m * 16 / 8 = sp + m * 2
      omega
    · simp only [seekSamples]
      rcases Nat.mod_two_eq_zero_or_one
          (satCastU64 ((SAMPLES_ONE_SEC : ℚ) * p)) with h | h
      · rw [if_neg (by omega)]
        exact h
      · rw [if_pos h]
        omega
    · intro hneg
      have hlt : (SAMPLES_ONE_SEC : ℚ) * p < 0 := by
        have hpos : (0 : ℚ) < (SAMPLES_ONE_SEC : ℚ) := by
          norm_num [SAMPLES_ONE_SEC, AUDIO_SAMPLE_RATE, AUDIO_CHANNELS]
        exact mul_neg_of_pos_of_neg hpos hneg
      simp only [seekSamples]
      rw [satCastU64, if_pos hlt]
      norm_num
  · intro st c p hr hle h4 hbound hdur
    set D := st.end_pos - st.start_pos with hD
    have hmeven : (D / 2) % 2 = 0 := by omega
    have hcast : (D : ℚ) = 2 * ((D / 2 : Nat) : ℚ) := by
      have h2 : D / 2 * 2 = D := Nat.div_mul_cancel (by omega)
      calc (D : ℚ) = ((D / 2 * 2 : Nat) : ℚ) := by rw [h2]
        _ = 2 * ((D / 2 : Nat) : ℚ) := by push_cast; ring
    have hdur' : (D : ℚ) / 176400 ≤ p := by
      rw [duration_from_bytes, BYTES_ONE_SEC_eq] at hdur
      push_cast at hdur
      exact hdur
    have hsc : ((SAMPLES_ONE_SEC : Nat) : ℚ) = 88200 := by
      norm_num [SAMPLES_ONE_SEC, AUDIO_SAMPLE_RATE, AUDIO_CHANNELS]
    have hq : ((D / 2 : Nat) : ℚ) ≤ (SAMPLES_ONE_SEC : ℚ) * p := by
      rw [hsc]
      rw [hcast] at hdur'
      linarith
    have hp0 : (0 : ℚ) ≤ (SAMPLES_ONE_SEC : ℚ) * p :=
      le_trans (Nat.cast_nonneg _) hq
    have hfloor : ((D / 2 : Nat) : ℤ) ≤ ⌊(SAMPLES_ONE_SEC : ℚ) * p⌋ := by
      rw [Int.le_floor]
      push_cast
      exact_mod_cast hq
    have hsat : D / 2 ≤ satCastU64 ((SAMPLES_ONE_SEC : ℚ) * p) := by
      rw [satCastU64, if_neg (not_lt.mpr hp0)]
      rw [show u64Max = 18446744073709551615 from rfl]
      rw [show u64Max = 18446744073709551615 from rfl] at hbound
      omega
    have hseek : D / 2 ≤ seekSamples p := by
      simp only [seekSamples]
      rcases Nat.mod_two_eq_zero_or_one
          (satCastU64 ((SAMPLES_ONE_SEC : ℚ) * p)) with h | h
      · rw [if_neg (by omega)]
        exact hsat
      · rw [if_pos h]
        omega
    omega
  · intro p d
    constructor
    · intro h
      simp only [tuiSeekForward]
      rw [if_pos h]
    · simp only [tuiSeekForward]
      split_ifs with h <;> linarith

/-- Witness for `c3_seek_amended`: the exact landing position at a concrete
open-medium state with `s = 1` (which is at or above the 2048-byte track's
duration, landing past `end_pos`), and a concrete TUI clamp. -/
theorem c3_seek_amended_witness :
    ((applyCommand
        { paused := false, reader := some 0, start_pos := 0, end_pos := 2048,
          song_seconds := 0, volume := 1 }
        (PlayerCommand.Seek 1)).state.reader
      = some (0 + seekSamples 1 * 2) ∧
     seekSamples 1 % 2 = 0 ∧
     ((1 : ℚ) < 0 → seekSamples 1 = 0)) ∧
    ((2048 : Nat) ≤ 0 + seekSamples 1 * 2) ∧
    tuiSeekForward 7 10 = 10 - 1 ∧
    tuiSeekForward 7 10 < 10 :=
  ⟨c3_seek_amended.1
      { paused := false, reader := some 0, start_pos := 0, end_pos := 2048,
        song_seconds := 0, volume := 1 } 0 1 rfl,
   c3_seek_amended.2.1
      { paused := false, reader := some 0, start_pos := 0, end_pos := 2048,
        song_seconds := 0, volume := 1 } 0 1 rfl (by decide) (by decide)
      (by decide)
      (by
        show duration_from_bytes 2048 ≤ 1
        rw [duration_from_bytes, BYTES_ONE_SEC_eq]
        norm_num),
   (c3_seek_amended.2.2 7 10).1 (by norm_num),
   (c3_seek_amended.2.2 7 10).2⟩

/-! ### C2: the Goto handler -/

/-- C2 counterexample: in the initial state (no medium open), `Goto(T, true)`
does **not** clear `paused` and does **not** emit `Paused(false)` — its only
event is `Progress(0, song_seconds)` — refuting the claim that the
autoplay effects happen "including in the state where no medium handle is
open". -/
theorem c2_goto_counterexample :
    (applyCommand initState
        (PlayerCommand.Goto ⟨1, 1, 100, 200, 100⟩ true)).state.paused = true ∧
    (applyCommand initState
        (PlayerCommand.Goto ⟨1, 1, 100, 200, 100⟩ true)).events
      = [PlayerCallbackEvent.Progress 0 1] := by
  constructor <;> rfl

/-- C2 (amended): `Goto(track, autoplay)` always sets `start_pos`, `end_pos`
and `song_seconds` from the track and ends its events with
`Progress(0, song_seconds)`; but the cursor seek and the autoplay effects
(clearing `paused`, emitting `Paused(false)`) happen only when a medium
handle is open.  With no medium open, `paused` and the (absent) cursor are
untouched and the only event is the Progress one. -/
theorem c2_goto_amended (st : EngineState) (T : Track) (play : Bool) :
    (applyCommand st (PlayerCommand.Goto T play)).state.start_pos
        = T.start_offset ∧
    (applyCommand st (PlayerCommand.Goto T play)).state.end_pos
        = T.end_offset ∧
    (applyCommand st (PlayerCommand.Goto T play)).state.song_seconds
        = ((T.end_offset - T.start_offset) / BYTES_ONE_SEC) % u32Mod ∧
    (st.reader = none →
      (applyCommand st (PlayerCommand.Goto T play)).state.paused = st.paused ∧
      (applyCommand st (PlayerCommand.Goto T play)).state.reader = none ∧
      (applyCommand st (PlayerCommand.Goto T play)).events
        = [PlayerCallbackEvent.Progress 0
            (((T.end_offset - T.start_offset) / BYTES_ONE_SEC) % u32Mod)]) ∧
    (∀ c, st.reader = some c →
      (applyCommand st (PlayerCommand.Goto T play)).state.reader
          = some T.start_offset ∧
      (play = true →
        (applyCommand st (PlayerCommand.Goto T play)).state.paused = false ∧
        (applyCommand st (PlayerCommand.Goto T play)).events
          = [PlayerCallbackEvent.Paused false,
             PlayerCallbackEvent.Progress 0
               (((T.end_offset - T.start_offset) / BYTES_ONE_SEC) % u32Mod)]) ∧
      (play = false →
        (applyCommand st (PlayerCommand.Goto T play)).state.paused = st.paused ∧
        (applyCommand st (PlayerCommand.Goto T play)).events
          = [PlayerCallbackEvent.Progress 0
              (((T.end_offset - T.start_offset) / BYTES_ONE_SEC) % u32Mod)])) := by
  cases hr : st.reader <;> cases play <;>
    simp [applyCommand, hr]

/-- Witness for `c2_goto_amended` at a concrete open-medium state and track. -/
theorem c2_goto_amended_witness :
    (applyCommand { initState with reader := some 0 }
        (PlayerCommand.Goto ⟨1, 1, 100, 200, 100⟩ true)).state.reader
      = some 204800 ∧
    (applyCommand { initState with reader := some 0 }
        (PlayerCommand.Goto ⟨1, 1, 100, 200, 100⟩ true)).state.paused = false := by
  have h := c2_goto_amended { initState with reader := some 0 }
    ⟨1, 1, 100, 200, 100⟩ true
  obtain ⟨-, -, -, -, h5⟩ := h
  obtain ⟨h51, h52, -⟩ := h5 0 rfl
  exact ⟨h51, (h52 rfl).1⟩

/-! ### C5: ChangeVolume clamping -/

/-- C5 counterexample: the engine stores an out-of-range volume verbatim:
`ChangeVolume(2)` leaves the engine's volume at 2, outside [0,1], refuting
"the engine ... stores the value clamped to the nearest bound of [0,1]". -/
theorem c5_volume_counterexample :
    (applyCommand initState (PlayerCommand.ChangeVolume 2)).state.volume = 2 ∧
    ¬ ((2 : ℚ) ≤ 1) := by
  exact ⟨rfl, by norm_num⟩

/-- C5 (amended): the engine's `ChangeVolume` handler stores the received
value verbatim (no clamping in the engine); the clamping to [0,1] is done by
the TUI volume key handlers before sending, which keep the UI-side volume in
[0,1]. -/
theorem c5_volume_amended :
    (∀ (st : EngineState) (v : ℚ),
      (applyCommand st (PlayerCommand.ChangeVolume v)).state.volume = v) ∧
    (∀ v : ℚ, 0 ≤ v → v ≤ 1 →
      0 ≤ tuiVolumeDown v ∧ tuiVolumeDown v ≤ 1 ∧
      0 ≤ tuiVolumeUp v ∧ tuiVolumeUp v ≤ 1) := by
  constructor
  · intro st v
    rfl
  · intro v h0 h1
    simp only [tuiVolumeDown, tuiVolumeUp]
    split_ifs <;> constructor <;> try constructor
    all_goals first | linarith | (constructor <;> linarith)

/-- Witness for `c5_volume_amended` at `v = 1/2`. -/
theorem c5_volume_amended_witness :
    0 ≤ tuiVolumeDown (1/2) ∧ tuiVolumeDown (1/2) ≤ 1 ∧
    0 ≤ tuiVolumeUp (1/2) ∧ tuiVolumeUp (1/2) ≤ 1 :=
  c5_volume_amended.2 (1/2) (by norm_num) (by norm_num)

/-! ### C9: the real-time audio callback -/

/-- C9: the audio callback fills every slot of the buffer — the next queued
sample when available, the silence value 0 otherwise — and `N` callback
cycles on an empty queue emit exactly `N × frame_size` silence samples. -/
theorem c9_callback_fill :
    (∀ (q : List ℤ) (n : Nat),
      playFn q n = (q.take n ++ List.replicate (n - q.length) 0, q.drop n)) ∧
    (∀ (n N : Nat), playCycles [] n N = List.replicate (N * n) 0) := by
  have hfill : ∀ (n : Nat) (q : List ℤ),
      playFn q n = (q.take n ++ List.replicate (n - q.length) 0, q.drop n) := by
    intro n
    induction n with
    | zero => intro q; simp [playFn]
    | succ n ih =>
        intro q
        cases q with
        | nil => simp [playFn, ih, List.replicate_succ]
        | cons s rest => simp [playFn, ih rest]
  refine ⟨fun q n => hfill n q, fun n N => ?_⟩
  induction N with
  | zero => simp [playCycles]
  | succ N ih =>
      simp only [playCycles, hfill n ([] : List ℤ)]
      simp only [List.take_nil, List.drop_nil, List.nil_append, List.length_nil,
        Nat.sub_zero]
      rw [ih, ← List.replicate_add]
      congr 1
      ring

/-! ### C10: cursor-below-start_pos underflow (Goto before Start) -/

/-- C10: the claimed invariant "cursor ≥ start_pos whenever a medium is open"
fails.  Applying `Goto(Track{start_addr=100, end_addr=200}, false)` before
`Start` leaves `start_pos = 204800` while `Start` opens the medium with the
cursor at byte 0, so the `u64` subtraction `cursor − start_pos` performed by
the GetPosition handler (and the in-loop Progress check) underflows. -/
theorem c10_goto_before_start_underflow :
    (run (fun _ => 0) initState
        [some (PlayerCommand.Goto ⟨1, 1, 100, 200, 100⟩ false),
         some PlayerCommand.Start]).state.reader = some 0 ∧
    (run (fun _ => 0) initState
        [some (PlayerCommand.Goto ⟨1, 1, 100, 200, 100⟩ false),
         some PlayerCommand.Start]).state.start_pos = 204800 ∧
    positionUnderflows (run (fun _ => 0) initState
        [some (PlayerCommand.Goto ⟨1, 1, 100, 200, 100⟩ false),
         some PlayerCommand.Start]).state := by
  refine ⟨rfl, rfl, 0, rfl, by decide⟩

/-! ### C8: StopAndWait is terminal -/

theorem applyCommand_not_stop (st : EngineState) (cmd : PlayerCommand)
    (h : cmd ≠ PlayerCommand.StopAndWait) :
    (applyCommand st cmd).stopped = false ∧
    PlayerResult.Stopped ∉ (applyCommand st cmd).results := by
  cases cmd
  case StopAndWait => exact absurd rfl h
  case Goto track play =>
    cases hr : st.reader <;> cases play <;> simp [applyCommand, hr]
  case Seek p => cases hr : st.reader <;> simp [applyCommand, hr]
  all_goals simp [applyCommand]

theorem pollCommand_not_stop (st : EngineState) (i : Option PlayerCommand)
    (h : i ≠ some PlayerCommand.StopAndWait) :
    (pollCommand st i).stopped = false ∧
    PlayerResult.Stopped ∉ (pollCommand st i).results := by
  cases i with
  | none => exact ⟨rfl, by simp [pollCommand, noCommand]⟩
  | some cmd =>
      exact applyCommand_not_stop st cmd (fun hc => h (by rw [hc]))

/-- C8: for any command sequence, the first `StopAndWait` yields exactly one
`Stopped` reply (the prefix never produces one), and the engine loop
terminates there: the inputs after it contribute no further events, results
or samples. -/
theorem c8_stop_and_wait (medium : Nat → ℤ) (st : EngineState)
    (xs ys : List (Option PlayerCommand))
    (h : some PlayerCommand.StopAndWait ∉ xs) :
    (run medium st (xs ++ some PlayerCommand.StopAndWait :: ys)).events
      = (run medium st xs).events ∧
    (run medium st (xs ++ some PlayerCommand.StopAndWait :: ys)).results
      = (run medium st xs).results ++ [PlayerResult.Stopped] ∧
    (run medium st (xs ++ some PlayerCommand.StopAndWait :: ys)).outs
      = (run medium st xs).outs ∧
    PlayerResult.Stopped ∉ (run medium st xs).results := by
  induction xs generalizing st with
  | nil =>
      simp only [List.nil_append]
      rw [run_cons_stopped medium st (some PlayerCommand.StopAndWait) ys rfl]
      exact ⟨rfl, rfl, rfl, by simp [run_nil]⟩
  | cons x xs ih =>
      have hx : x ≠ some PlayerCommand.StopAndWait := by
        intro hc
        exact h (by rw [hc]; exact List.mem_cons_self _ _)
      have hpoll := pollCommand_not_stop st x hx
      have hrest := ih (tick medium st x).state
        (fun hm => h (List.mem_cons_of_mem _ hm))
      rw [List.cons_append]
      rw [run_cons_not_stopped medium st x _ hpoll.1,
          run_cons_not_stopped medium st x xs hpoll.1]
      dsimp only
      refine ⟨?_, ?_, ?_, ?_⟩
      · rw [hrest.1]
      · rw [hrest.2.1, List.append_assoc]
      · rw [hrest.2.2.1]
      · rw [tick_results_eq_poll]
        intro hmem
        rcases List.mem_append.mp hmem with hmem | hmem
        · exact hpoll.2 hmem
        · exact hrest.2.2.2 hmem

/-- Witness for `c8_stop_and_wait` on a concrete command sequence. -/
theorem c8_stop_and_wait_witness :
    (run (fun _ => 0) initState
        ([some PlayerCommand.Start]
          ++ some PlayerCommand.StopAndWait :: [none])).events
      = (run (fun _ => 0) initState [some PlayerCommand.Start]).events ∧
    (run (fun _ => 0) initState
        ([some PlayerCommand.Start]
          ++ some PlayerCommand.StopAndWait :: [none])).results
      = (run (fun _ => 0) initState [some PlayerCommand.Start]).results
        ++ [PlayerResult.Stopped] ∧
    (run (fun _ => 0) initState
        ([some PlayerCommand.Start]
          ++ some PlayerCommand.StopAndWait :: [none])).outs
      = (run (fun _ => 0) initState [some PlayerCommand.Start]).outs ∧
    PlayerResult.Stopped
      ∉ (run (fun _ => 0) initState [some PlayerCommand.Start]).results :=
  c8_stop_and_wait (fun _ => 0) initState [some PlayerCommand.Start] [none]
    (by simp)

/-! ### C7: Progress cadence lemmas -/

theorem progressCurrents_append (a b : List PlayerCallbackEvent) :
    progressCurrents (a ++ b) = progressCurrents a ++ progressCurrents b := by
  simp [progressCurrents]

theorem lbnd_congr (st st' : EngineState) (h1 : st'.reader = st.reader)
    (h2 : st'.start_pos = st.start_pos) : lbnd st' = lbnd st := by
  simp only [lbnd, h1, h2]

theorem pollCommand_benign (st : EngineState) (i : Option PlayerCommand)
    (h : benignInput i = true) :
    (pollCommand st i).state.reader = st.reader ∧
    (pollCommand st i).state.start_pos = st.start_pos ∧
    (pollCommand st i).state.end_pos = st.end_pos ∧
    progressCurrents (pollCommand st i).events = [] ∧
    (pollCommand st i).stopped = false := by
  cases i with
  | none => exact ⟨rfl, rfl, rfl, rfl, rfl⟩
  | some cmd =>
      cases cmd
      case Goto track play => exact Bool.noConfusion h
      case Seek p => exact Bool.noConfusion h
      case Start => exact Bool.noConfusion h
      case StopAndWait => exact Bool.noConfusion h
      all_goals exact ⟨rfl, rfl, rfl, rfl, rfl⟩

theorem productionStep_lbnd (medium : Nat → ℤ) (st : EngineState)
    (hc : ∀ c, st.reader = some c → st.start_pos ≤ c)
    (hb : st.end_pos ≤ st.start_pos + u32Mod * BYTES_ONE_SEC) :
    (productionStep medium st).1.start_pos = st.start_pos ∧
    (productionStep medium st).1.end_pos = st.end_pos ∧
    (∀ c', (productionStep medium st).1.reader = some c' →
        st.start_pos ≤ c') ∧
    lbnd st ≤ lbnd (productionStep medium st).1 ∧
    (progressCurrents (productionStep medium st).2.1 = [] ∨
      (progressCurrents (productionStep medium st).2.1 = [lbnd st] ∧
       lbnd (productionStep medium st).1 = lbnd st + 1)) := by
  cases hr : st.reader with
  | none =>
      rw [productionStep_none medium st hr]
      refine ⟨rfl, rfl, ?_, le_refl _, Or.inl rfl⟩
      intro c' h
      have h' : st.reader = some c' := h
      rw [hr] at h'
      exact absurd h' (by simp)
  | some pos =>
      have hspos := hc pos hr
      by_cases hp : st.paused = true
      · rw [productionStep_paused medium st hp]
        refine ⟨rfl, rfl, ?_, le_refl _, Or.inl rfl⟩
        intro c' h
        have h' : st.reader = some c' := h
        rw [hr] at h'
        injection h' with he
        omega
      · have hp' : st.paused = false := by
          revert hp; cases st.paused <;> simp
        rcases lt_or_ge pos st.end_pos with hlt | hge
        · rw [productionStep_reads medium st pos hr hp' hlt]
          have hlb : lbnd st
              = (pos - st.start_pos + (BYTES_ONE_SEC - 1)) / BYTES_ONE_SEC := by
            simp only [lbnd, hr]
          have hlb' : lbnd ({ st with reader := some (pos + 2) } : EngineState)
              = (pos + 2 - st.start_pos + (BYTES_ONE_SEC - 1))
                  / BYTES_ONE_SEC := by
            simp only [lbnd]
          refine ⟨rfl, rfl, ?_, ?_, ?_⟩
          · intro c' h
            have h' : some (pos + 2) = some c' := h
            injection h' with he
            omega
          · rw [hlb, hlb', BYTES_ONE_SEC_eq]
            omega
          · by_cases h0 : (pos - st.start_pos) % BYTES_ONE_SEC = 0
            · refine Or.inr ⟨?_, ?_⟩
              · rw [if_pos h0]
                show [((pos - st.start_pos) / BYTES_ONE_SEC) % u32Mod]
                  = [lbnd st]
                rw [hlb, BYTES_ONE_SEC_eq, u32Mod_eq]
                rw [BYTES_ONE_SEC_eq] at h0
                rw [BYTES_ONE_SEC_eq, u32Mod_eq] at hb
                congr 1
                omega
              · show lbnd ({ st with reader := some (pos + 2) } : EngineState)
                  = lbnd st + 1
                rw [hlb', hlb, BYTES_ONE_SEC_eq]
                rw [BYTES_ONE_SEC_eq] at h0
                omega
            · rw [if_neg h0]
              exact Or.inl rfl
        · rw [productionStep_finished medium st pos hr hp' hge]
          refine ⟨rfl, rfl, ?_, le_refl _, Or.inl rfl⟩
          intro c' h
          have h' : st.reader = some c' := h
          rw [hr] at h'
          injection h' with he
          omega

theorem run_progress_aux (medium : Nat → ℤ)
    (inputs : List (Option PlayerCommand)) :
    ∀ st : EngineState, inputs.all benignInput = true →
    (∀ c, st.reader = some c → st.start_pos ≤ c) →
    st.end_pos ≤ st.start_pos + u32Mod * BYTES_ONE_SEC →
    List.Pairwise (· < ·) (progressCurrents (run medium st inputs).events) ∧
    (∀ v ∈ progressCurrents (run medium st inputs).events, lbnd st ≤ v) := by
  induction inputs with
  | nil =>
      intro st _ _ _
      rw [run_nil]
      constructor <;> simp [progressCurrents]
  | cons i rest ih =>
      intro st hall hc hb
      rw [List.all_cons, Bool.and_eq_true] at hall
      obtain ⟨hi, hrest⟩ := hall
      obtain ⟨hpr, hps, hpe, hpev, hpstop⟩ := pollCommand_benign st i hi
      have hc1 : ∀ c, (pollCommand st i).state.reader = some c →
          (pollCommand st i).state.start_pos ≤ c := by
        intro c h
        rw [hpr] at h
        rw [hps]
        exact hc c h
      have hb1 : (pollCommand st i).state.end_pos
          ≤ (pollCommand st i).state.start_pos + u32Mod * BYTES_ONE_SEC := by
        rw [hpe, hps]
        exact hb
      obtain ⟨hq1, hq2, hq3, hq5, hq6⟩ :=
        productionStep_lbnd medium (pollCommand st i).state hc1 hb1
      have hts : (tick medium st i).state
          = (productionStep medium (pollCommand st i).state).1 :=
        tick_state_eq medium st i hpstop
      have hlbp : lbnd (pollCommand st i).state = lbnd st :=
        lbnd_congr st _ hpr hps
      have hc2 : ∀ c, (tick medium st i).state.reader = some c →
          (tick medium st i).state.start_pos ≤ c := by
        intro c h
        rw [hts] at h ⊢
        rw [hq1]
        exact hq3 c h
      have hb2 : (tick medium st i).state.end_pos
          ≤ (tick medium st i).state.start_pos + u32Mod * BYTES_ONE_SEC := by
        rw [hts, hq1, hq2]
        exact hb1
      have IH := ih (tick medium st i).state hrest hc2 hb2
      have hmono : lbnd st ≤ lbnd (tick medium st i).state := by
        rw [hts, ← hlbp]
        exact hq5
      rw [run_cons_not_stopped medium st i rest hpstop]
      dsimp only
      rw [tick_events_eq medium st i hpstop]
      rw [progressCurrents_append, progressCurrents_append, hpev,
        List.nil_append]
      rcases hq6 with hq6 | ⟨hq6, hsucc⟩
      · rw [hq6, List.nil_append]
        exact ⟨IH.1, fun v hv => le_trans hmono (IH.2 v hv)⟩
      · rw [hq6]
        have hsucc' : lbnd (tick medium st i).state = lbnd st + 1 := by
          rw [hts, hsucc, hlbp]
        rw [List.singleton_append]
        constructor
        · refine List.Pairwise.cons ?_ IH.1
          intro b hb'
          have h2 := IH.2 b hb'
          rw [hsucc'] at h2
          omega
        · intro v hv
          rcases List.mem_cons.mp hv with hv | hv
          · omega
          · have h2 := IH.2 v hv
            rw [hsucc'] at h2
            omega

/-- C7: the in-loop Progress cadence.  (1) Over any run of "while playing"
inputs (empty polls, pause-state commands, volume changes, queries — no
Goto/Seek/Start), starting from a state whose cursor is at or past
`start_pos` and whose track length fits a `u32` of seconds, the `current`
values of the emitted Progress events are strictly increasing — so Progress
fires at most once per whole elapsed second and `current_seconds` is
monotone.  (2) A producing step emits Progress exactly when
`(cursor − start_pos) mod bytes_per_second = 0`, with
`current = (cursor − start_pos) / bytes_per_second`.  (3) Every Goto ends
its events with `Progress(0, song_seconds)` — the reset to 0. -/
theorem c7_progress_markers :
    (∀ (medium : Nat → ℤ) (inputs : List (Option PlayerCommand))
        (st : EngineState),
      inputs.all benignInput = true →
      (∀ c, st.reader = some c → st.start_pos ≤ c) →
      st.end_pos ≤ st.start_pos + u32Mod * BYTES_ONE_SEC →
      List.Pairwise (· < ·)
        (progressCurrents (run medium st inputs).events)) ∧
    (∀ (medium : Nat → ℤ) (st : EngineState) (pos : Nat),
      st.reader = some pos → st.paused = false → pos < st.end_pos →
      (productionStep medium st).2.1
        = (if (pos - st.start_pos) % BYTES_ONE_SEC = 0 then
            [PlayerCallbackEvent.Progress
              (((pos - st.start_pos) / BYTES_ONE_SEC) % u32Mod)
              st.song_seconds]
          else [])) ∧
    (∀ (st : EngineState) (T : Track) (play : Bool),
      (applyCommand st (PlayerCommand.Goto T play)).events.getLast?
        = some (PlayerCallbackEvent.Progress 0
            (applyCommand st
              (PlayerCommand.Goto T play)).state.song_seconds)) := by
  refine ⟨fun medium inputs st hall hc hb =>
      (run_progress_aux medium inputs st hall hc hb).1, ?_, ?_⟩
  · intro medium st pos hr hp hlt
    rw [productionStep_reads medium st pos hr hp hlt]
  · intro st T play
    cases hr : st.reader <;> cases play <;> simp [applyCommand, hr]

/-- Witness for `c7_progress_markers` at concrete states and inputs. -/
theorem c7_progress_markers_witness :
    List.Pairwise (· < ·)
      (progressCurrents (run (fun _ => 3)
        { paused := false, reader := some 0, start_pos := 0, end_pos := 8,
          song_seconds := 0, volume := 1 } [none, none]).events) ∧
    (productionStep (fun _ => 3)
        { paused := false, reader := some 0, start_pos := 0, end_pos := 8,
          song_seconds := 0, volume := 1 }).2.1
      = (if ((0 : Nat) - (0 : Nat)) % BYTES_ONE_SEC = 0 then
          [PlayerCallbackEvent.Progress
            ((((0 : Nat) - (0 : Nat)) / BYTES_ONE_SEC) % u32Mod) 0]
        else []) ∧
    (applyCommand initState
        (PlayerCommand.Goto ⟨1, 1, 100, 200, 100⟩ true)).events.getLast?
      = some (PlayerCallbackEvent.Progress 0
          (applyCommand initState
            (PlayerCommand.Goto ⟨1, 1, 100, 200, 100⟩
              true)).state.song_seconds) :=
  ⟨c7_progress_markers.1 (fun _ => 3) [none, none]
      { paused := false, reader := some 0, start_pos := 0, end_pos := 8,
        song_seconds := 0, volume := 1 } rfl
      (by
        intro c h
        have h' : some 0 = some c := h
        injection h' with h''
        show (0 : Nat) ≤ c
        omega)
      (by decide),
   c7_progress_markers.2.1 (fun _ => 3)
      { paused := false, reader := some 0, start_pos := 0, end_pos := 8,
        song_seconds := 0, volume := 1 } 0 rfl rfl (by decide),
   c7_progress_markers.2.2 initState ⟨1, 1, 100, 200, 100⟩ true⟩

/-! ### C4: per-sample volume application -/

/-- C4 counterexample: the per-sample volume application truncates toward
zero rather than rounding to nearest: at sample 99 and volume 1/2 the code
produces 49 (`(99 × 0.5) as i16 = 49`), while round-to-nearest would give
50. -/
theorem c4_volume_counterexample :
    applyVolume 99 (1/2) = 49 ∧ specRoundVolume 99 (1/2) = 50 ∧
    (49 : ℤ) ≠ 50 := by
  refine ⟨?_, ?_, by omega⟩
  · rw [applyVolume, truncQ, if_pos (by norm_num)]
    rw [show ⌊((99 : ℤ) : ℚ) * (1/2)⌋ = 49 by norm_num]
    rfl
  · rw [specRoundVolume, round_eq]
    norm_num

/-- C4 (amended): the sample pushed by the production step is
`applyVolume (medium pos) volume`, and for any 16-bit sample `x` and volume
`v ∈ [0,1]` this equals the truncation toward zero of `x × v` (the Rust
`as i16` cast; no saturation occurs in range), not round-to-nearest. -/
theorem c4_volume_truncates :
    (∀ (medium : Nat → ℤ) (st : EngineState) (pos : Nat),
      st.reader = some pos → st.paused = false → pos < st.end_pos →
      (productionStep medium st).2.2 = [applyVolume (medium pos) st.volume]) ∧
    (∀ (x : ℤ) (v : ℚ), -32768 ≤ x → x ≤ 32767 → 0 ≤ v → v ≤ 1 →
      applyVolume x v = truncQ ((x : ℚ) * v)) := by
  constructor
  · intro medium st pos hr hp hlt
    rw [productionStep_reads medium st pos hr hp hlt]
  · intro x v hx1 hx2 hv0 hv1
    rw [applyVolume, satI16]
    have hb : -32768 ≤ truncQ ((x : ℚ) * v) ∧ truncQ ((x : ℚ) * v) ≤ 32767 := by
      rw [truncQ]
      by_cases hq : 0 ≤ (x : ℚ) * v
      · rw [if_pos hq]
        have hfl : (0 : ℤ) ≤ ⌊(x : ℚ) * v⌋ := Int.floor_nonneg.mpr hq
        have hle : (x : ℚ) * v ≤ 32767 := by
          rcases le_or_lt 0 (x : ℚ) with hx | hx
          · have h1 : (x : ℚ) * v ≤ (x : ℚ) * 1 := by nlinarith
            have h2 : (x : ℚ) ≤ 32767 := by exact_mod_cast hx2
            nlinarith
          · nlinarith
        have := Int.floor_mono hle
        rw [show ⌊(32767 : ℚ)⌋ = 32767 by norm_num] at this
        omega
      · rw [if_neg hq]
        push_neg at hq
        have hxneg : (x : ℚ) < 0 := by nlinarith
        have hge : (x : ℚ) ≤ (x : ℚ) * v := by nlinarith
        have h1 : -((x : ℚ) * v) ≤ -(x : ℚ) := by linarith
        have h2 : -(x : ℚ) ≤ 32768 := by
          have : (-32768 : ℚ) ≤ (x : ℚ) := by exact_mod_cast hx1
          linarith
        have h3 : ⌊-((x : ℚ) * v)⌋ ≤ 32768 := by
          have := Int.floor_mono (le_trans h1 h2)
          rw [show ⌊(32768 : ℚ)⌋ = 32768 by norm_num] at this
          omega
        have h4 : (0 : ℤ) ≤ ⌊-((x : ℚ) * v)⌋ :=
          Int.floor_nonneg.mpr (by linarith)
        omega
    omega

/-- Witness for `c4_volume_truncates` at a concrete reading state and at
sample 99 with volume 1/2. -/
theorem c4_volume_truncates_witness :
    (productionStep (fun _ => 99)
        { paused := false, reader := some 0, start_pos := 0, end_pos := 4,
          song_seconds := 0, volume := 1/2 }).2.2
      = [applyVolume 99 (1/2)] ∧
    applyVolume 99 (1/2) = truncQ (((99 : ℤ) : ℚ) * (1/2)) :=
  ⟨c4_volume_truncates.1 (fun _ => 99)
      { paused := false, reader := some 0, start_pos := 0, end_pos := 4,
        song_seconds := 0, volume := 1/2 } 0 rfl rfl (by decide),
   c4_volume_truncates.2 99 (1/2) (by omega) (by omega)
     (by norm_num) (by norm_num)⟩

/-! ### C6: production never reads past the track boundary -/

/-- C6: in the production step, with a medium open and not paused: when the
cursor is at or past `end_pos` the engine emits `Finished` and produces no
sample (state unchanged, no read); a sample is read exactly when the
pre-read cursor is strictly below `end_pos`, advancing the cursor by one
2-byte sample; and for an even cursor and even (sector-aligned) `end_pos`,
a cursor that starts at or below `end_pos` stays at or below `end_pos`. -/
theorem c6_no_read_past_end (medium : Nat → ℤ) (st : EngineState) (pos : Nat)
    (hr : st.reader = some pos) (hp : st.paused = false) :
    (st.end_pos ≤ pos →
      productionStep medium st = (st, [PlayerCallbackEvent.Finished], [])) ∧
    (pos < st.end_pos →
      (productionStep medium st).1.reader = some (pos + 2) ∧
      (productionStep medium st).2.2.length = 1) ∧
    (pos % 2 = 0 → st.end_pos % 2 = 0 → pos ≤ st.end_pos →
      ∀ pos', (productionStep medium st).1.reader = some pos' →
        pos' ≤ st.end_pos) := by
  refine ⟨fun hge => productionStep_finished medium st pos hr hp hge,
    fun hlt => ?_, ?_⟩
  · rw [productionStep_reads medium st pos hr hp hlt]
    exact ⟨rfl, rfl⟩
  · intro h2p h2e hle pos' hreader
    rcases lt_or_ge pos st.end_pos with hlt | hge
    · rw [productionStep_reads medium st pos hr hp hlt] at hreader
      have : pos' = pos + 2 := by
        have h := hreader
        simp only [EngineState.reader] at h
        exact (Option.some.injEq _ _).mp h.symm
      omega
    · rw [productionStep_finished medium st pos hr hp hge] at hreader
      rw [hr] at hreader
      have : pos' = pos := (Option.some.injEq _ _).mp hreader.symm
      omega

/-- Witness for `c6_no_read_past_end` at a concrete reading state. -/
theorem c6_no_read_past_end_witness :
    (productionStep (fun _ => 7)
        { paused := false, reader := some 0, start_pos := 0, end_pos := 4,
          song_seconds := 0, volume := 1 }).1.reader = some (0 + 2) ∧
    (productionStep (fun _ => 7)
        { paused := false, reader := some 0, start_pos := 0, end_pos := 4,
          song_seconds := 0, volume := 1 }).2.2.length = 1 :=
  (c6_no_read_past_end (fun _ => 7)
    { paused := false, reader := some 0, start_pos := 0, end_pos := 4,
      song_seconds := 0, volume := 1 } 0 rfl rfl).2.1 (by decide)

end PseudoCd
